import Mathlib

/-!
Shallow embedding of the SMC V9.1 signal and risk engine.

The definitions below are direct translations of the two Python source
files: `manual_fvg_v9_1_killzones.py` (backtest engine, namespace
`SMC.Backtest`) and `live_fvg_monitor.py` (live monitor and local risk
ledger, namespace `SMC.Live`).  Prices and capital are modelled by `ℚ`,
bar positions by `ℕ`, and the `NaN` warm-up prefixes of the pandas
rolling means by `Option ℚ`.  The "time" of a bar is represented by its
position in the series together with its hour-of-day field, which is all
the engine ever reads from a timestamp.
-/

set_option linter.unusedVariables false

namespace SMC

/-- Trade direction, the `'LONG'` / `'SHORT'` strings of the source. -/
inductive Direction
  | LONG
  | SHORT
deriving DecidableEq, Repr

/-- FVG type, the `'Bullish'` / `'Bearish'` strings of the source. -/
inductive FVGType
  | Bullish
  | Bearish
deriving DecidableEq, Repr

/-- Backtest trade outcome, the `'Running' | 'Win' | 'Loss' | 'BE'` strings. -/
inductive Outcome
  | Running
  | Win
  | Loss
  | BE
deriving DecidableEq, Repr

/-- One OHLC bar.  `hour` is the hour-of-day of the bar's timestamp, the
only component of the timestamp the engine reads.  Volume is present in
the CSV input but never read by the engine and is omitted. -/
structure Bar where
  hour : ℕ
  open_ : ℚ
  high : ℚ
  low : ℚ
  close : ℚ
deriving DecidableEq, Repr

instance : Inhabited Bar := ⟨⟨0, 0, 0, 0, 0⟩⟩

/-- Positional indexing into the bar series (`df.iloc[i]` / the numpy
`values` arrays).  All accesses made by the source are in range; out of
range positions yield the zero bar. -/
def nth : List Bar → ℕ → Bar
  | [], _ => default
  | b :: _, 0 => b
  | _ :: rest, k + 1 => nth rest k

namespace Backtest

/-- `INITIAL_CAPITAL = 10000` -/
def INITIAL_CAPITAL : ℚ := 10000

/-- `RISK_PER_TRADE = 0.01` -/
def RISK_PER_TRADE : ℚ := 1 / 100

/-- `TARGET_RR = 2.0` -/
def TARGET_RR : ℚ := 2

/-- `BE_TRIGGER_RR = 1.0` -/
def BE_TRIGGER_RR : ℚ := 1

/-- `ATR_MULTIPLIER = 1.0` -/
def ATR_MULTIPLIER : ℚ := 1

/-- `SL_PADDING_ATR = 0.5` -/
def SL_PADDING_ATR : ℚ := 1 / 2

/-- `KZ_LONDON_START = 7` -/
def KZ_LONDON_START : ℕ := 7

/-- `KZ_LONDON_END = 10` -/
def KZ_LONDON_END : ℕ := 10

/-- `KZ_NY_START = 12` -/
def KZ_NY_START : ℕ := 12

/-- `KZ_NY_END = 15` -/
def KZ_NY_END : ℕ := 15

/-- `is_killzone_hour(timestamp)`: the source reads `timestamp.hour` and
tests the two inclusive ranges; the model takes the hour directly. -/
def is_killzone_hour (hour : ℕ) : Bool :=
  (KZ_LONDON_START ≤ hour && hour ≤ KZ_LONDON_END) ||
    (KZ_NY_START ≤ hour && hour ≤ KZ_NY_END)

/-- `body_size` column of `calculate_features`: `abs(close - open)`. -/
def body_size (df : List Bar) (i : ℕ) : ℚ :=
  |(nth df i).close - (nth df i).open_|

/-- The true-range series `tr = max(high - low, abs(high - close.shift(1)))`.
In pandas `tr[0]` is `NaN` (shifted close); it is only ever consumed
through `atrAt`, which is `none` whenever a `NaN` would enter the window. -/
def trAt (df : List Bar) (i : ℕ) : ℚ :=
  max ((nth df i).high - (nth df i).low)
    |(nth df i).high - (nth df (i - 1)).close|

/-- `df['atr'] = tr.rolling(14).mean()`: defined (non-NaN) exactly for
positions `i ≥ 14`, where the 14-bar window contains no `NaN` true range. -/
def atrAt (df : List Bar) (i : ℕ) : Option ℚ :=
  if 14 ≤ i then
    some ((((List.range 14).map (fun k => trAt df (i - k))).sum) / 14)
  else none

/-- `df['ema200'] = df['close'].rolling(200).mean()` (an SMA despite the
column name): defined exactly for positions `i ≥ 199`. -/
def ema200At (df : List Bar) (i : ℕ) : Option ℚ :=
  if 199 ≤ i then
    some ((((List.range 200).map (fun k => (nth df (i - k)).close)).sum) / 200)
  else none

/-- One fair value gap record, the dict built by `detect_displacement_fvgs`.
`time` in the source is the creation bar's timestamp; here it is the
creation position, as is `created_at`. -/
structure FVG where
  time : ℕ
  type : FVGType
  top : ℚ
  bottom : ℚ
  mitigated : Bool
  created_at : ℕ
deriving DecidableEq, Repr

instance : Inhabited FVG := ⟨⟨0, FVGType.Bullish, 0, 0, false, 0⟩⟩

/-- Positional indexing into the gap list. -/
def nthFvg : List FVG → ℕ → FVG
  | [], _ => default
  | f :: _, 0 => f
  | _ :: rest, k + 1 => nthFvg rest k

/-- The body of the `detect_displacement_fvgs` scan at one candidate
position `i`: NaN guard on `ema200`/`atr`, killzone filter, momentum
gate, then the trend-aligned three-bar gap tests. -/
def fvgAt (df : List Bar) (i : ℕ) : Option FVG :=
  match ema200At df i, atrAt df i with
  | some ema, some atr =>
    if is_killzone_hour (nth df i).hour then
      if body_size df i > ATR_MULTIPLIER * atr then
        if (nth df i).close > ema then
          if (nth df i).low > (nth df (i - 2)).high then
            some { time := i, type := FVGType.Bullish, top := (nth df i).low,
                   bottom := (nth df (i - 2)).high, mitigated := false,
                   created_at := i }
          else none
        else if (nth df i).close < ema then
          if (nth df i).high < (nth df (i - 2)).low then
            some { time := i, type := FVGType.Bearish,
                   top := (nth df (i - 2)).low, bottom := (nth df i).high,
                   mitigated := false, created_at := i }
          else none
        else none
      else none
    else none
  | _, _ => none

/-- `detect_displacement_fvgs(df)`: `for i in range(2, len(df) - 50)`,
collecting the qualifying gaps in scan order. -/
def detect_displacement_fvgs (df : List Bar) : List FVG :=
  (List.range' 2 (df.length - 50 - 2)).filterMap (fvgAt df)

/-- The signal dict returned by `check_signal`.  The source returns a
reference to the matched FVG dict (`'fvg'` key); the model returns the
matched gap's position `fvgIdx` in the gap list, which identifies the
same object for the mitigation write-back in `run_backtest`. -/
structure Signal where
  type : Direction
  entry : ℚ
  sl : ℚ
  fvgIdx : ℕ
deriving DecidableEq, Repr

/-- Shift a signal's matched-gap position by one (used when the scan
recurses past the head of the gap list). -/
def bump (s : Signal) : Signal := { s with fvgIdx := s.fvgIdx + 1 }

/-- The `for fvg in fvgs` loop of `check_signal`: skip gaps created at or
after the current bar, mitigated gaps, and gaps older than 200 bars;
otherwise fire on the first gap whose near edge is touched. -/
def scanFvgs (i : ℕ) (lowi highi atri : ℚ) : List FVG → Option Signal
  | [] => none
  | fvg :: rest =>
    if i ≤ fvg.created_at then (scanFvgs i lowi highi atri rest).map bump
    else if fvg.mitigated then (scanFvgs i lowi highi atri rest).map bump
    else if 200 < i - fvg.created_at then (scanFvgs i lowi highi atri rest).map bump
    else
      match fvg.type with
      | FVGType.Bullish =>
        if lowi ≤ fvg.top then
          some { type := Direction.LONG, entry := fvg.top,
                 sl := fvg.bottom - SL_PADDING_ATR * atri, fvgIdx := 0 }
        else (scanFvgs i lowi highi atri rest).map bump
      | FVGType.Bearish =>
        if fvg.bottom ≤ highi then
          some { type := Direction.SHORT, entry := fvg.bottom,
                 sl := fvg.top + SL_PADDING_ATR * atri, fvgIdx := 0 }
        else (scanFvgs i lowi highi atri rest).map bump

/-- `check_signal(i, df, fvgs)`. -/
def check_signal (i : ℕ) (df : List Bar) (fvgs : List FVG) : Option Signal :=
  if i < 200 then none
  else
    match atrAt df i with
    | none => none
    | some atr => scanFvgs i (nth df i).low (nth df i).high atr fvgs

/-- `signal['fvg']['mitigated'] = True`: set the mitigated flag of the
gap at position `k`, leaving every other gap untouched. -/
def markMitigated : List FVG → ℕ → List FVG
  | [], _ => []
  | f :: rest, 0 => { f with mitigated := true } :: rest
  | f :: rest, k + 1 => f :: markMitigated rest k

/-- One iteration of the position-management loop of `run_backtest`
(`for j in range(i + 1, len(df))`) at one future bar: stop test first,
then target test, then break-even arming.  Returns the outcome (`Running`
when the loop continues), the pnl set on exit, and the updated `is_be`. -/
def simStep (bar : Bar) (direction : Direction)
    (entry sl tp beTrig riskAmt : ℚ) (isBE : Bool) : Outcome × ℚ × Bool :=
  match direction with
  | Direction.LONG =>
    if bar.low ≤ (if isBE then entry else sl) then
      (if isBE then Outcome.BE else Outcome.Loss,
       if isBE then 0 else -riskAmt, isBE)
    else if tp ≤ bar.high then (Outcome.Win, riskAmt * TARGET_RR, isBE)
    else if !isBE && decide (beTrig ≤ bar.high) then (Outcome.Running, 0, true)
    else (Outcome.Running, 0, isBE)
  | Direction.SHORT =>
    if (if isBE then entry else sl) ≤ bar.high then
      (if isBE then Outcome.BE else Outcome.Loss,
       if isBE then 0 else -riskAmt, isBE)
    else if bar.low ≤ tp then (Outcome.Win, riskAmt * TARGET_RR, isBE)
    else if !isBE && decide (bar.low ≤ beTrig) then (Outcome.Running, 0, true)
    else (Outcome.Running, 0, isBE)

/-- The whole position-management loop over the future-bar positions `l`.
`jPrev` plays the role of Python's loop variable `j` before the first
iteration (the loop range is never empty where the result is consumed).
Returns the final outcome, the pnl, and the last bar position processed. -/
def simRun (df : List Bar) (direction : Direction)
    (entry sl tp beTrig riskAmt : ℚ) : Bool → ℕ → List ℕ → Outcome × ℚ × ℕ
  | _, jPrev, [] => (Outcome.Running, 0, jPrev)
  | isBE, _, j :: rest =>
    let r := simStep (nth df j) direction entry sl tp beTrig riskAmt isBE
    if r.1 = Outcome.Running then
      simRun df direction entry sl tp beTrig riskAmt r.2.2 j rest
    else (r.1, r.2.1, j)

/-- One row of the `trades` log of `run_backtest` (keys `Time`, `Type`,
`Result`, `PnL`, `Balance`); `time` is the entry bar's position. -/
structure TradeRec where
  time : ℕ
  type : Direction
  result : Outcome
  pnl : ℚ
  balance : ℚ
deriving DecidableEq, Repr

/-- The state threaded through the outer `while i < len(df) - 1` loop of
`run_backtest`: the scan cursor `i`, the (mutably marked) gap list, the
running capital and the trade log.  The remaining fields are observation
instrumentation recording, at exactly the corresponding source points:
every bar position at which `check_signal` is invoked (`scans`), every
accepted signal as (entry bar, matched gap position) (`accepted`, recorded
where the source sets the mitigated flag), every finalized trade as
(entry bar `i`, finalize bar `j`) (`spans`), and the number of times the
`risk == 0` discard branch is taken (`discards`). -/
structure BTState where
  i : ℕ
  fvgs : List FVG
  capital : ℚ
  trades : List TradeRec
  scans : List ℕ
  accepted : List (ℕ × ℕ)
  spans : List (ℕ × ℕ)
  discards : ℕ
deriving DecidableEq, Repr

/-- `tp = entry + risk * TARGET_RR` for LONG, `entry - risk * TARGET_RR`
for SHORT, with `risk = abs(entry - sl)`. -/
def btTp (sig : Signal) : ℚ :=
  if sig.type = Direction.LONG then sig.entry + |sig.entry - sig.sl| * TARGET_RR
  else sig.entry - |sig.entry - sig.sl| * TARGET_RR

/-- `be_trigger = entry ± risk * BE_TRIGGER_RR`. -/
def btBe (sig : Signal) : ℚ :=
  if sig.type = Direction.LONG then sig.entry + |sig.entry - sig.sl| * BE_TRIGGER_RR
  else sig.entry - |sig.entry - sig.sl| * BE_TRIGGER_RR

/-- The inner position-management loop as invoked by `run_backtest`:
over the future bars `range(i + 1, len(df))`, with `risk_amt = capital *
RISK_PER_TRADE` and `is_be` initially false. -/
def btSim (df : List Bar) (s : BTState) (sig : Signal) : Outcome × ℚ × ℕ :=
  simRun df sig.type sig.entry sig.sl (btTp sig) (btBe sig)
    (s.capital * RISK_PER_TRADE) false s.i
    (List.range' (s.i + 1) (df.length - (s.i + 1)))

/-- The signal-accepted branch of the outer loop body (`risk != 0`): mark
the matched gap mitigated, simulate the position, and on a non-`Running`
outcome update capital, append the trade row and jump the cursor to the
finalize bar `j` (the source then advances it by the loop's `i += 1`). -/
def btOpen (df : List Bar) (s : BTState) (sig : Signal) : BTState :=
  if (btSim df s sig).1 = Outcome.Running then
    { s with i := s.i + 1, scans := s.scans ++ [s.i],
             fvgs := markMitigated s.fvgs sig.fvgIdx,
             accepted := s.accepted ++ [(s.i, sig.fvgIdx)] }
  else
    { i := (btSim df s sig).2.2 + 1,
      fvgs := markMitigated s.fvgs sig.fvgIdx,
      capital := s.capital + (btSim df s sig).2.1,
      trades := s.trades ++
        [{ time := s.i, type := sig.type, result := (btSim df s sig).1,
           pnl := (btSim df s sig).2.1,
           balance := s.capital + (btSim df s sig).2.1 }],
      scans := s.scans ++ [s.i],
      accepted := s.accepted ++ [(s.i, sig.fvgIdx)],
      spans := s.spans ++ [(s.i, (btSim df s sig).2.2)],
      discards := s.discards }

/-- One iteration of the outer loop body of `run_backtest` (executed
when `i < len(df) - 1`). -/
def btStep (df : List Bar) (s : BTState) : BTState :=
  match check_signal s.i df s.fvgs with
  | none => { s with i := s.i + 1, scans := s.scans ++ [s.i] }
  | some sig =>
    if |sig.entry - sig.sl| = 0 then
      { s with i := s.i + 1, scans := s.scans ++ [s.i],
               discards := s.discards + 1 }
    else btOpen df s sig

/-- The outer `while i < len(df) - 1` loop, fuelled; the cursor strictly
increases each iteration, so fuel `df.length` always runs it to
completion (`btLoop_complete`). -/
def btLoop (df : List Bar) : ℕ → BTState → BTState
  | 0, s => s
  | fuel + 1, s =>
    if s.i < df.length - 1 then btLoop df fuel (btStep df s) else s

/-- `run_backtest(df)`: detect the gaps, then scan from `i = 200`.  The
source returns `(DataFrame(trades), capital)`; the model returns the full
final state, whose `trades` and `capital` fields are that result. -/
def run_backtest (df : List Bar) : BTState :=
  btLoop df df.length
    { i := 200, fvgs := detect_displacement_fvgs df,
      capital := INITIAL_CAPITAL, trades := [], scans := [],
      accepted := [], spans := [], discards := 0 }

end Backtest

namespace Live

/-- `ATR_PERIOD = 14` -/
def ATR_PERIOD : ℕ := 14

/-- `ATR_MULTIPLIER = 1.0` -/
def ATR_MULTIPLIER : ℚ := 1

/-- `SMA_PERIOD = 200` -/
def SMA_PERIOD : ℕ := 200

/-- `SL_PADDING = 0.5` -/
def SL_PADDING : ℚ := 1 / 2

/-- `RISK_REWARD = 2.0` -/
def RISK_REWARD : ℚ := 2

/-- `KZ_LONDON = [7, 8, 9, 10]` -/
def KZ_LONDON : List ℕ := [7, 8, 9, 10]

/-- `KZ_NY = [12, 13, 14, 15]` -/
def KZ_NY : List ℕ := [12, 13, 14, 15]

/-- The session gate of `check_structure`: the hour is accepted when it
belongs to either explicit killzone hour set (otherwise the function
returns `None`). -/
def in_live_killzone (hour : ℕ) : Bool :=
  KZ_LONDON.contains hour || KZ_NY.contains hour

/-- The signal dict built by `check_structure` (`type`, `entry`, `sl`,
`price`, `tp`, `time_utc`; the session caption and ATR echo are message
decoration).  `time_utc` is the position of the signal bar. -/
structure LiveSignal where
  type : Direction
  entry : ℚ
  sl : ℚ
  price : ℚ
  tp : ℚ
  time_utc : ℕ
deriving DecidableEq, Repr

/-- `check_structure(df)`: analyse the most recently closed bar
`iloc[-2]` against `iloc[-4]`.  `calculate_indicators` computes the same
`trend` (SMA 200), `atr` (SMA 14 of true range) and `body_size` columns
as the backtest's `calculate_features`, so those are reused.  Whenever
`atr` or `trend` is `NaN` at the signal bar the source falls through all
gates (NaN comparisons are false) and returns `None`, which the `none`
branch reproduces. -/
def check_structure (df : List Bar) : Option LiveSignal :=
  let n := df.length
  let curr := nth df (n - 2)
  let prev2 := nth df (n - 4)
  if in_live_killzone curr.hour then
    match Backtest.atrAt df (n - 2), Backtest.ema200At df (n - 2) with
    | some atr, some trend =>
      if Backtest.body_size df (n - 2) ≤ ATR_MULTIPLIER * atr then none
      else
        let sig0 : Option LiveSignal :=
          if curr.close > trend then
            if curr.low > prev2.high then
              some { type := Direction.LONG, entry := curr.low,
                     sl := prev2.high - atr * SL_PADDING,
                     price := curr.close, tp := 0, time_utc := n - 2 }
            else none
          else if curr.close < trend then
            if curr.high < prev2.low then
              some { type := Direction.SHORT, entry := curr.high,
                     sl := prev2.low + atr * SL_PADDING,
                     price := curr.close, tp := 0, time_utc := n - 2 }
            else none
          else none
        match sig0 with
        | none => none
        | some sig =>
          some { sig with
                 tp := if sig.type = Direction.LONG then
                         sig.entry + |sig.entry - sig.sl| * RISK_REWARD
                       else sig.entry - |sig.entry - sig.sl| * RISK_REWARD }
    | _, _ => none
  else none

/-- Ledger entry `status` field. -/
inductive Status
  | OPEN
  | CLOSED
deriving DecidableEq, Repr

/-- Ledger entry `result` field. -/
inductive TradeResult
  | PENDING
  | WIN
  | LOSS
deriving DecidableEq, Repr

/-- One persisted trade-history record of `LocalRiskManager` (`time`,
`type`, `entry`, `sl`, `tp`, `status`, `result`, and the close fields set
on resolution).  Timestamps are modelled as integers ordered like the
source's parsed ISO instants. -/
structure LedgerEntry where
  time : ℤ
  type : Direction
  entry : ℚ
  sl : ℚ
  tp : ℚ
  status : Status
  result : TradeResult
  close_price : Option ℚ
  close_time : Option ℤ
deriving DecidableEq, Repr

/-- The per-entry body of `update_open_trades`: entries not `OPEN` are
untouched; a LONG resolves to WIN when `high ≥ tp` (checked first), else
to LOSS when `low ≤ sl`; a SHORT resolves to WIN when `low ≤ tp`
(checked first), else to LOSS when `high ≥ sl`. -/
def updateTrade (current_high current_low : ℚ) (now : ℤ)
    (t : LedgerEntry) : LedgerEntry :=
  if t.status = Status.OPEN then
    match t.type with
    | Direction.LONG =>
      if t.tp ≤ current_high then
        { t with status := Status.CLOSED, result := TradeResult.WIN,
                 close_price := some t.tp, close_time := some now }
      else if current_low ≤ t.sl then
        { t with status := Status.CLOSED, result := TradeResult.LOSS,
                 close_price := some t.sl, close_time := some now }
      else t
    | Direction.SHORT =>
      if current_low ≤ t.tp then
        { t with status := Status.CLOSED, result := TradeResult.WIN,
                 close_price := some t.tp, close_time := some now }
      else if t.sl ≤ current_high then
        { t with status := Status.CLOSED, result := TradeResult.LOSS,
                 close_price := some t.sl, close_time := some now }
      else t
  else t

/-- `update_open_trades(current_price, current_high, current_low)`: apply
the resolver once to every history entry (`current_price` is received but
never read by the resolution logic; `now` is the wall-clock close time
written into resolved entries). -/
def update_open_trades (current_price current_high current_low : ℚ)
    (now : ℤ) (history : List LedgerEntry) : List LedgerEntry :=
  history.map (updateTrade current_high current_low now)

/-- The stats dict of `calculate_stats`. -/
structure Stats where
  daily_loss : ℕ
  consecutive_loss : ℕ
deriving DecidableEq, Repr

/-- The consecutive-loss scan of `calculate_stats`, applied to the
already-reversed history (`for trade in reversed(history)`): count `LOSS`
entries, stopping at the first `WIN` or `PENDING`. -/
def consecScan : List LedgerEntry → ℕ
  | [] => 0
  | t :: rest =>
    match t.result with
    | TradeResult.LOSS => consecScan rest + 1
    | TradeResult.WIN => 0
    | TradeResult.PENDING => 0

/-- `calculate_stats()`: `daily_loss` counts `LOSS` entries timestamped at
or after the start of the current UTC day (`todayStart`);
`consecutive_loss` scans from the most recent entry backward. -/
def calculate_stats (history : List LedgerEntry) (todayStart : ℤ) : Stats :=
  { daily_loss :=
      (history.filter
        (fun t => t.result = TradeResult.LOSS ∧ todayStart ≤ t.time)).length,
    consecutive_loss := consecScan history.reverse }

/-- The tier mapping of `calculate_risk_percent` as a function of the
computed stats: the consecutive-loss tiers, overridden to `0` by the
daily circuit breaker. -/
def riskPercentOfStats (s : Stats) : ℚ :=
  let risk_percent : ℚ :=
    if 10 ≤ s.consecutive_loss then 1 / 100
    else if 5 ≤ s.consecutive_loss then 2 / 100
    else if 2 ≤ s.consecutive_loss then 3 / 100
    else 5 / 100
  if 3 ≤ s.daily_loss then 0 else risk_percent

/-- `calculate_risk_percent()`: compute the stats from the ledger and
apply the tier mapping. -/
def calculate_risk_percent (history : List LedgerEntry)
    (todayStart : ℤ) : ℚ :=
  riskPercentOfStats (calculate_stats history todayStart)

end Live

namespace Backtest

/-- Well-formed OHLC data: every bar's low is at most its high.  This is
the (unchecked) shape of real exchange data the engine consumes. -/
def wellformedBars (df : List Bar) : Prop := ∀ b ∈ df, b.low ≤ b.high

/-- The balance after the last trade of a log, or `init` for an empty log;
this is the value `capital` holds between trades in `run_backtest`. -/
def lastBal (init : ℚ) : List TradeRec → ℚ
  | [] => init
  | t :: rest => lastBal t.balance rest

/-- The capital-accounting contract of claim C4, chained along a trade
log: each trade's pnl matches its outcome's formula with
`risk_amount = balance-at-entry * RISK_PER_TRADE`, and each recorded
balance is the previous balance plus the pnl. -/
def tradesChain (init : ℚ) : List TradeRec → Prop
  | [] => True
  | t :: rest =>
    ((t.result = Outcome.Win ∧ t.pnl = init * RISK_PER_TRADE * TARGET_RR) ∨
     (t.result = Outcome.Loss ∧ t.pnl = -(init * RISK_PER_TRADE)) ∨
     (t.result = Outcome.BE ∧ t.pnl = 0)) ∧
    t.balance = init + t.pnl ∧ tradesChain t.balance rest

/-- A flat all-100 bar inside the London killzone (concrete test data). -/
def flat100 : Bar := ⟨8, 100, 100, 100, 100⟩

/-- A flat all-120 bar (concrete test data). -/
def flat120 : Bar := ⟨8, 120, 130, 120, 120⟩

/-- A concrete 251-bar series: 200 flat warm-up bars, a displacement bar
at position 200 creating a bullish FVG (top 106, bottom 100), a trigger
bar at 201 (low 105 ≤ 106), a take-profit bar at 202 (high 130), then
48 flat bars.  Its backtest produces exactly one trade, entered at bar
201 and finalized (Win) at bar 202. -/
def exDf : List Bar :=
  List.replicate 200 flat100 ++
    [⟨8, 100, 111, 106, 110⟩, ⟨8, 106, 106, 105, 106⟩, ⟨8, 120, 130, 120, 120⟩] ++
    List.replicate 48 flat120

end Backtest

end SMC

namespace SMC

/-! ### Supporting lemmas: live ledger -/

/-- The consecutive-loss scan counts exactly the longest all-LOSS prefix
of its (already reversed) input. -/
theorem consecScan_eq_takeWhile (l : List Live.LedgerEntry) :
    Live.consecScan l =
      (l.takeWhile (fun t => t.result == Live.TradeResult.LOSS)).length := by
  induction l with
  | nil => rfl
  | cons t rest ih =>
    cases h : t.result <;>
      simp [Live.consecScan, List.takeWhile_cons, h, ih]

/-- Everything older than a WIN or PENDING stopper is invisible to the
consecutive-loss scan. -/
theorem consecScan_stopper (w : Live.LedgerEntry)
    (hw : w.result = Live.TradeResult.WIN ∨
          w.result = Live.TradeResult.PENDING) :
    ∀ l m m' : List Live.LedgerEntry,
      Live.consecScan (l ++ w :: m) = Live.consecScan (l ++ w :: m') := by
  intro l
  induction l with
  | nil =>
    intro m m'
    rcases hw with h | h <;> simp [Live.consecScan, h]
  | cons t rest ih =>
    intro m m'
    cases h : t.result <;> simp [Live.consecScan, h, ih m m']

/-! ### Claim theorems: live ledger and sessions -/

/-- Claim C5: the live risk-tier function returns 1% when
`consecutive_loss_count ≥ 10`, 2% when `≥ 5`, 3% when `≥ 2`, 5%
otherwise, and returns 0% (halt) whenever `daily_loss_count ≥ 3`
regardless of the consecutive-loss tier; it is a pure function of the
ledger snapshot (it factors through `calculate_stats`), hence
deterministic. -/
theorem C5_risk_tiers (s : Live.Stats) (history : List Live.LedgerEntry)
    (todayStart : ℤ) :
    (3 ≤ s.daily_loss → Live.riskPercentOfStats s = 0) ∧
    (s.daily_loss < 3 →
      ((10 ≤ s.consecutive_loss → Live.riskPercentOfStats s = 1 / 100) ∧
       (5 ≤ s.consecutive_loss → s.consecutive_loss < 10 →
          Live.riskPercentOfStats s = 2 / 100) ∧
       (2 ≤ s.consecutive_loss → s.consecutive_loss < 5 →
          Live.riskPercentOfStats s = 3 / 100) ∧
       (s.consecutive_loss < 2 → Live.riskPercentOfStats s = 5 / 100))) ∧
    Live.calculate_risk_percent history todayStart =
      Live.riskPercentOfStats (Live.calculate_stats history todayStart) := by
  refine ⟨fun h3 => ?_,
          fun h3 => ⟨fun h10 => ?_, fun h5 h10 => ?_,
                     fun h2 h5 => ?_, fun h2 => ?_⟩, rfl⟩ <;>
    simp only [Live.riskPercentOfStats] <;>
    split_ifs <;> first | rfl | omega

/-- Claim C5 witness at a concrete snapshot: 4 consecutive losses and a
quiet day give the 3% tier. -/
theorem C5_risk_tiers_witness :
    Live.riskPercentOfStats ⟨0, 4⟩ = 3 / 100 :=
  ((C5_risk_tiers ⟨0, 4⟩ [] 0).2.1 (by decide)).2.2.1 (by decide) (by decide)

/-- Claim C6: `consecutive_loss_count` scans entries from the most recent
backward, counting LOSS entries and stopping at the first WIN or PENDING
(the takeWhile characterisation); hence a most-recent PENDING entry makes
the count 0, and LOSS entries older than the nearest WIN are never
counted (the count over `h1 ++ w :: h2` ignores `h1` entirely). -/
theorem C6_consecutive_loss_scan (history h1 h2 : List Live.LedgerEntry)
    (w e : Live.LedgerEntry) (todayStart : ℤ) :
    (Live.calculate_stats history todayStart).consecutive_loss =
      (history.reverse.takeWhile
        (fun t => t.result == Live.TradeResult.LOSS)).length ∧
    (e.result = Live.TradeResult.PENDING →
      (Live.calculate_stats (history ++ [e]) todayStart).consecutive_loss
        = 0) ∧
    (w.result = Live.TradeResult.WIN →
      (Live.calculate_stats (h1 ++ w :: h2) todayStart).consecutive_loss =
        (Live.calculate_stats (w :: h2) todayStart).consecutive_loss) := by
  refine ⟨consecScan_eq_takeWhile history.reverse, fun hp => ?_, fun hw => ?_⟩
  · show Live.consecScan (history ++ [e]).reverse = 0
    rw [List.reverse_append]
    simp [Live.consecScan, hp]
  · show Live.consecScan (h1 ++ w :: h2).reverse =
      Live.consecScan (w :: h2).reverse
    have e1 : (h1 ++ w :: h2).reverse = h2.reverse ++ w :: h1.reverse := by
      simp
    have e2 : (w :: h2).reverse = h2.reverse ++ w :: ([] : List Live.LedgerEntry) := by
      simp
    rw [e1, e2]
    exact consecScan_stopper w (Or.inl hw) h2.reverse h1.reverse []

/-- Claim C6 witness: with a LOSS after the most recent WIN, the streak
is 1 and the older losses are not counted. -/
theorem C6_consecutive_loss_scan_witness :
    (Live.calculate_stats
        [⟨0, Direction.LONG, 1, 0, 2, Live.Status.CLOSED, Live.TradeResult.LOSS, none, none⟩,
         ⟨1, Direction.LONG, 1, 0, 2, Live.Status.CLOSED, Live.TradeResult.WIN, none, none⟩,
         ⟨2, Direction.LONG, 1, 0, 2, Live.Status.CLOSED, Live.TradeResult.LOSS, none, none⟩] 0).consecutive_loss =
      (Live.calculate_stats
        [⟨1, Direction.LONG, 1, 0, 2, Live.Status.CLOSED, Live.TradeResult.WIN, none, none⟩,
         ⟨2, Direction.LONG, 1, 0, 2, Live.Status.CLOSED, Live.TradeResult.LOSS, none, none⟩] 0).consecutive_loss :=
  (C6_consecutive_loss_scan []
      [⟨0, Direction.LONG, 1, 0, 2, Live.Status.CLOSED, Live.TradeResult.LOSS, none, none⟩]
      [⟨2, Direction.LONG, 1, 0, 2, Live.Status.CLOSED, Live.TradeResult.LOSS, none, none⟩]
      ⟨1, Direction.LONG, 1, 0, 2, Live.Status.CLOSED, Live.TradeResult.WIN, none, none⟩
      ⟨0, Direction.LONG, 1, 0, 2, Live.Status.CLOSED, Live.TradeResult.LOSS, none, none⟩
      0).2.2 rfl

/-- Claim C7: the live resolver never touches CLOSED entries, applies the
bar once to every OPEN entry with the target checked before the stop
(LONG: WIN if `high ≥ tp`, else LOSS if `low ≤ sl`; SHORT: WIN if
`low ≤ tp`, else LOSS if `high ≥ sl`; otherwise unchanged), so a bar
satisfying both conditions resolves to WIN. -/
theorem C7_open_trade_resolution (price high low : ℚ) (now : ℤ)
    (t : Live.LedgerEntry) (history : List Live.LedgerEntry) :
    (Live.update_open_trades price high low now history =
       history.map (Live.updateTrade high low now)) ∧
    (t.status = Live.Status.CLOSED → Live.updateTrade high low now t = t) ∧
    (t.status = Live.Status.OPEN → t.type = Direction.LONG →
      ((t.tp ≤ high → Live.updateTrade high low now t =
          { t with status := Live.Status.CLOSED,
                   result := Live.TradeResult.WIN,
                   close_price := some t.tp, close_time := some now }) ∧
       (¬ t.tp ≤ high → low ≤ t.sl → Live.updateTrade high low now t =
          { t with status := Live.Status.CLOSED,
                   result := Live.TradeResult.LOSS,
                   close_price := some t.sl, close_time := some now }) ∧
       (¬ t.tp ≤ high → ¬ low ≤ t.sl →
          Live.updateTrade high low now t = t))) ∧
    (t.status = Live.Status.OPEN → t.type = Direction.SHORT →
      ((low ≤ t.tp → Live.updateTrade high low now t =
          { t with status := Live.Status.CLOSED,
                   result := Live.TradeResult.WIN,
                   close_price := some t.tp, close_time := some now }) ∧
       (¬ low ≤ t.tp → t.sl ≤ high → Live.updateTrade high low now t =
          { t with status := Live.Status.CLOSED,
                   result := Live.TradeResult.LOSS,
                   close_price := some t.sl, close_time := some now }) ∧
       (¬ low ≤ t.tp → ¬ t.sl ≤ high →
          Live.updateTrade high low now t = t))) := by
  refine ⟨rfl, ?_, ?_, ?_⟩
  · intro hc
    simp [Live.updateTrade, hc]
  · intro ho hl
    refine ⟨?_, ?_, ?_⟩
    · intro h1
      simp [Live.updateTrade, ho, hl, h1]
    · intro h1 h2
      simp [Live.updateTrade, ho, hl, h1, h2]
    · intro h1 h2
      simp [Live.updateTrade, ho, hl, h1, h2]
  · intro ho hs
    refine ⟨?_, ?_, ?_⟩
    · intro h1
      simp [Live.updateTrade, ho, hs, h1]
    · intro h1 h2
      simp [Live.updateTrade, ho, hs, h1, h2]
    · intro h1 h2
      simp [Live.updateTrade, ho, hs, h1, h2]

/-- Claim C7 witness: a bar whose range satisfies both the target and the
stop condition of an OPEN LONG entry resolves it to WIN. -/
theorem C7_open_trade_resolution_witness :
    Live.updateTrade 10 0 5
        ⟨0, Direction.LONG, 4, 1, 9, Live.Status.OPEN, Live.TradeResult.PENDING, none, none⟩ =
      ⟨0, Direction.LONG, 4, 1, 9, Live.Status.CLOSED, Live.TradeResult.WIN, some 9, some 5⟩ :=
  ((C7_open_trade_resolution 7 10 0 5
      ⟨0, Direction.LONG, 4, 1, 9, Live.Status.OPEN, Live.TradeResult.PENDING, none, none⟩
      []).2.2.1 rfl rfl).1 (by norm_num)

/-- Claim C8: the backtest's inclusive-range killzone test and the live
monitor's explicit hour-set test classify every hour of day 0..23
identically, both accepting exactly the hours 7, 8, 9, 10, 12, 13, 14,
15. -/
theorem C8_killzone_equivalence (hour : ℕ) (hlt : hour < 24) :
    Backtest.is_killzone_hour hour = Live.in_live_killzone hour ∧
    (Backtest.is_killzone_hour hour = true ↔
       hour ∈ [7, 8, 9, 10, 12, 13, 14, 15]) := by
  revert hour
  decide

/-- Claim C8 witness: hour 10 (the boundary hour the live variant had
once missed) is accepted by both tests. -/
theorem C8_killzone_equivalence_witness :
    Backtest.is_killzone_hour 10 = Live.in_live_killzone 10 ∧
    Backtest.is_killzone_hour 10 = true :=
  ⟨(C8_killzone_equivalence 10 (by decide)).1,
   (C8_killzone_equivalence 10 (by decide)).2.mpr (by decide)⟩

end SMC

namespace SMC

/-! ### Supporting lemmas: FVG detection -/

/-- A gap emitted by the detector body at position `i` records `i` as its
creation position and has a strictly positive height (`bottom < top`),
because both creation guards are strict wick gaps. -/
theorem fvgAt_spec (df : List Bar) (i : ℕ) (f : Backtest.FVG)
    (h : Backtest.fvgAt df i = some f) :
    f.created_at = i ∧ f.bottom < f.top := by
  unfold Backtest.fvgAt at h
  split at h
  · split_ifs at h with h1 h2 h3 h4 h5 h6 <;>
      first
        | (cases h; exact ⟨rfl, by assumption⟩)
        | exact Option.noConfusion h
  · exact Option.noConfusion h

/-- Every gap produced by the detector satisfies `fvgAt` at some position
inside `range(2, len(df) - 50)`. -/
theorem detect_mem (df : List Bar) (f : Backtest.FVG)
    (hf : f ∈ Backtest.detect_displacement_fvgs df) :
    ∃ i, i ∈ List.range' 2 (df.length - 50 - 2) ∧ Backtest.fvgAt df i = some f := by
  obtain ⟨i, hi, hfi⟩ := List.mem_filterMap.mp hf
  exact ⟨i, hi, hfi⟩

/-! ### Claim theorems: detector candidate range -/

/-- Claim C10: the backtest FVG detector only considers candidate
positions `i` with `2 ≤ i < len(series) - 50`, so no gap is ever created
from a pattern within the final 50 bars (every detected gap's creation
position leaves at least 50 later bars), and hence no backtest signal can
arise there (signals only reference detected gaps). -/
theorem C10_detector_skips_final_bars (df : List Bar) (f : Backtest.FVG)
    (hf : f ∈ Backtest.detect_displacement_fvgs df) :
    2 ≤ f.created_at ∧ f.created_at + 51 ≤ df.length := by
  obtain ⟨i, hi, hfi⟩ := detect_mem df f hf
  obtain ⟨hcre, -⟩ := fvgAt_spec df i f hfi
  have hr := List.mem_range'_1.mp hi
  omega

/-! ### Supporting lemmas: the trade state machine -/

/-- The pnl returned by a single simulation step matches the outcome's
formula. -/
theorem simStep_pnl (bar : Bar) (d : Direction) (e sl tp bt ra : ℚ)
    (be : Bool) :
    ((Backtest.simStep bar d e sl tp bt ra be).1 = Outcome.Win →
       (Backtest.simStep bar d e sl tp bt ra be).2.1 = ra * Backtest.TARGET_RR) ∧
    ((Backtest.simStep bar d e sl tp bt ra be).1 = Outcome.Loss →
       (Backtest.simStep bar d e sl tp bt ra be).2.1 = -ra) ∧
    ((Backtest.simStep bar d e sl tp bt ra be).1 = Outcome.BE →
       (Backtest.simStep bar d e sl tp bt ra be).2.1 = 0) ∧
    ((Backtest.simStep bar d e sl tp bt ra be).1 = Outcome.Running →
       (Backtest.simStep bar d e sl tp bt ra be).2.1 = 0) := by
  cases d <;> cases be <;>
    simp only [Backtest.simStep] <;>
    split_ifs <;> simp

/-- The pnl returned by the whole simulation loop matches the outcome's
formula. -/
theorem simRun_pnl (df : List Bar) (d : Direction) (e sl tp bt ra : ℚ) :
    ∀ (l : List ℕ) (be : Bool) (jp : ℕ),
      ((Backtest.simRun df d e sl tp bt ra be jp l).1 = Outcome.Win →
         (Backtest.simRun df d e sl tp bt ra be jp l).2.1 = ra * Backtest.TARGET_RR) ∧
      ((Backtest.simRun df d e sl tp bt ra be jp l).1 = Outcome.Loss →
         (Backtest.simRun df d e sl tp bt ra be jp l).2.1 = -ra) ∧
      ((Backtest.simRun df d e sl tp bt ra be jp l).1 = Outcome.BE →
         (Backtest.simRun df d e sl tp bt ra be jp l).2.1 = 0) ∧
      ((Backtest.simRun df d e sl tp bt ra be jp l).1 = Outcome.Running →
         (Backtest.simRun df d e sl tp bt ra be jp l).2.1 = 0) := by
  intro l
  induction l with
  | nil =>
    intro be jp
    simp [Backtest.simRun]
  | cons j rest ih =>
    intro be jp
    by_cases hr : (Backtest.simStep (nth df j) d e sl tp bt ra be).1 = Outcome.Running
    · simpa only [Backtest.simRun, hr, if_pos] using
        ih (Backtest.simStep (nth df j) d e sl tp bt ra be).2.2 j
    · simpa only [Backtest.simRun, hr, if_neg, not_false_iff] using
        simStep_pnl (nth df j) d e sl tp bt ra be

/-- When the simulation loop exits with a non-`Running` outcome, the
reported exit position is one of the processed future-bar positions. -/
theorem simRun_mem (df : List Bar) (d : Direction) (e sl tp bt ra : ℚ) :
    ∀ (l : List ℕ) (be : Bool) (jp : ℕ),
      (Backtest.simRun df d e sl tp bt ra be jp l).1 ≠ Outcome.Running →
      (Backtest.simRun df d e sl tp bt ra be jp l).2.2 ∈ l := by
  intro l
  induction l with
  | nil =>
    intro be jp h
    simp [Backtest.simRun] at h
  | cons j rest ih =>
    intro be jp h
    by_cases hr : (Backtest.simStep (nth df j) d e sl tp bt ra be).1 = Outcome.Running
    · simp only [Backtest.simRun] at h ⊢
      rw [if_pos hr] at h ⊢
      exact List.mem_cons_of_mem j
        (ih (Backtest.simStep (nth df j) d e sl tp bt ra be).2.2 j h)
    · simp only [Backtest.simRun]
      rw [if_neg hr]
      exact List.mem_cons_self j rest

/-! ### Claim theorems: trade state machine ordering -/

/-- Claim C3: on each bar of an open trade the simulator evaluates, in
order, the stop test (against the entry price once break-even has armed,
the original stop otherwise), then the target test, then break-even
arming; a stop hit ends the trade as Loss (BreakEven when armed)
regardless of whether the target was also touched, the target is only
consulted when the stop was not hit, and arming only happens on a bar
where neither stop nor target was hit. -/
theorem C3_stop_target_be_order (bar : Bar) (entry sl tp beTrig riskAmt : ℚ)
    (isBE : Bool) :
    (bar.low ≤ (if isBE then entry else sl) →
       Backtest.simStep bar Direction.LONG entry sl tp beTrig riskAmt isBE =
         (if isBE then Outcome.BE else Outcome.Loss,
          if isBE then 0 else -riskAmt, isBE)) ∧
    (¬ bar.low ≤ (if isBE then entry else sl) → tp ≤ bar.high →
       Backtest.simStep bar Direction.LONG entry sl tp beTrig riskAmt isBE =
         (Outcome.Win, riskAmt * Backtest.TARGET_RR, isBE)) ∧
    (¬ bar.low ≤ (if isBE then entry else sl) → ¬ tp ≤ bar.high →
       Backtest.simStep bar Direction.LONG entry sl tp beTrig riskAmt isBE =
         (Outcome.Running, 0, isBE || decide (beTrig ≤ bar.high))) ∧
    ((if isBE then entry else sl) ≤ bar.high →
       Backtest.simStep bar Direction.SHORT entry sl tp beTrig riskAmt isBE =
         (if isBE then Outcome.BE else Outcome.Loss,
          if isBE then 0 else -riskAmt, isBE)) ∧
    (¬ (if isBE then entry else sl) ≤ bar.high → bar.low ≤ tp →
       Backtest.simStep bar Direction.SHORT entry sl tp beTrig riskAmt isBE =
         (Outcome.Win, riskAmt * Backtest.TARGET_RR, isBE)) ∧
    (¬ (if isBE then entry else sl) ≤ bar.high → ¬ bar.low ≤ tp →
       Backtest.simStep bar Direction.SHORT entry sl tp beTrig riskAmt isBE =
         (Outcome.Running, 0, isBE || decide (bar.low ≤ beTrig))) := by
  refine ⟨?_, ?_, ?_, ?_, ?_, ?_⟩
  · intro h1
    simp [Backtest.simStep, h1]
  · intro h1 h2
    simp [Backtest.simStep, h1, h2]
  · intro h1 h2
    cases isBE
    · have h1a : ¬ bar.low ≤ sl := by simpa using h1
      by_cases hb : beTrig ≤ bar.high <;>
        simp [Backtest.simStep, h1a, h2, hb]
    · have h1a : ¬ bar.low ≤ entry := by simpa using h1
      simp [Backtest.simStep, h1a, h2]
  · intro h1
    simp [Backtest.simStep, h1]
  · intro h1 h2
    simp [Backtest.simStep, h1, h2]
  · intro h1 h2
    cases isBE
    · have h1a : ¬ sl ≤ bar.high := by simpa using h1
      by_cases hb : bar.low ≤ beTrig <;>
        simp [Backtest.simStep, h1a, h2, hb]
    · have h1a : ¬ entry ≤ bar.high := by simpa using h1
      simp [Backtest.simStep, h1a, h2]

end SMC

namespace SMC

/-! ### Supporting lemmas: gap scan and mitigation marking -/

/-- A signal returned by the gap scan points at an in-range gap that is
unmitigated, strictly older than the current bar and at most 200 bars
old, and carries that gap's entry and padded stop. -/
theorem scanFvgs_spec (i : ℕ) (lowi highi atri : ℚ) :
    ∀ (fvgs : List Backtest.FVG) (sig : Backtest.Signal),
      Backtest.scanFvgs i lowi highi atri fvgs = some sig →
      sig.fvgIdx < fvgs.length ∧
      (Backtest.nthFvg fvgs sig.fvgIdx).mitigated = false ∧
      (Backtest.nthFvg fvgs sig.fvgIdx).created_at < i ∧
      i - (Backtest.nthFvg fvgs sig.fvgIdx).created_at ≤ 200 ∧
      (((Backtest.nthFvg fvgs sig.fvgIdx).type = FVGType.Bullish ∧
          sig.type = Direction.LONG ∧
          sig.entry = (Backtest.nthFvg fvgs sig.fvgIdx).top ∧
          sig.sl = (Backtest.nthFvg fvgs sig.fvgIdx).bottom -
            Backtest.SL_PADDING_ATR * atri) ∨
       ((Backtest.nthFvg fvgs sig.fvgIdx).type = FVGType.Bearish ∧
          sig.type = Direction.SHORT ∧
          sig.entry = (Backtest.nthFvg fvgs sig.fvgIdx).bottom ∧
          sig.sl = (Backtest.nthFvg fvgs sig.fvgIdx).top +
            Backtest.SL_PADDING_ATR * atri)) := by
  intro fvgs
  induction fvgs with
  | nil => intro sig h; exact Option.noConfusion h
  | cons fvg rest ih =>
    intro sig h
    simp only [Backtest.scanFvgs] at h
    split_ifs at h with h1 h2 h3 h4 h5
    all_goals
      first
      | (obtain ⟨sig2, hs2, rfl⟩ := Option.map_eq_some'.mp h
         obtain ⟨hlen, hm, hc, ha, hd⟩ := ih sig2 hs2
         exact ⟨Nat.succ_lt_succ hlen, hm, hc, ha, hd⟩)
      | (cases htyp : fvg.type <;> rw [htyp] at h <;> simp only [] at h <;>
          first
          | (obtain ⟨sig2, hs2, rfl⟩ := Option.map_eq_some'.mp h
             obtain ⟨hlen, hm, hc, ha, hd⟩ := ih sig2 hs2
             exact ⟨Nat.succ_lt_succ hlen, hm, hc, ha, hd⟩)
          | (cases h
             simp only [Backtest.nthFvg]
             refine ⟨Nat.succ_pos _, by simpa using h2, by omega, by omega, ?_⟩
             simp [htyp]))

/-- A signal returned by `check_signal` implies `i ≥ 200`, a defined ATR
at `i`, and a successful gap scan with that ATR. -/
theorem check_signal_spec (i : ℕ) (df : List Bar)
    (fvgs : List Backtest.FVG) (sig : Backtest.Signal)
    (h : Backtest.check_signal i df fvgs = some sig) :
    200 ≤ i ∧ ∃ atr, Backtest.atrAt df i = some atr ∧
      Backtest.scanFvgs i (nth df i).low (nth df i).high atr fvgs = some sig := by
  unfold Backtest.check_signal at h
  split_ifs at h with h200
  cases hat : Backtest.atrAt df i with
  | none => rw [hat] at h; exact Option.noConfusion h
  | some atr =>
    rw [hat] at h
    exact ⟨by omega, atr, rfl, h⟩

/-- Marking a gap mitigated does not change the number of gaps. -/
theorem markMitigated_length (l : List Backtest.FVG) (k : ℕ) :
    (Backtest.markMitigated l k).length = l.length := by
  induction l generalizing k with
  | nil => cases k <;> rfl
  | cons f rest ih =>
    cases k with
    | zero => rfl
    | succ k => simpa [Backtest.markMitigated] using ih k

/-- Marking a gap mitigated sets exactly its flag. -/
theorem nthFvg_markMitigated_self (l : List Backtest.FVG) (k : ℕ)
    (hk : k < l.length) :
    Backtest.nthFvg (Backtest.markMitigated l k) k =
      { Backtest.nthFvg l k with mitigated := true } := by
  induction l generalizing k with
  | nil => simp at hk
  | cons f rest ih =>
    cases k with
    | zero => rfl
    | succ k => exact ih k (by simpa using hk)

/-- Marking a gap mitigated leaves every other position untouched. -/
theorem nthFvg_markMitigated_ne (l : List Backtest.FVG) (k j : ℕ)
    (hne : j ≠ k) :
    Backtest.nthFvg (Backtest.markMitigated l k) j = Backtest.nthFvg l j := by
  induction l generalizing k j with
  | nil => cases k <;> rfl
  | cons f rest ih =>
    cases k with
    | zero =>
      cases j with
      | zero => exact absurd rfl hne
      | succ j => rfl
    | succ k =>
      cases j with
      | zero => rfl
      | succ j => exact ih k j (fun hh => hne (by rw [hh]))

/-- In-range positions of the gap list index actual elements. -/
theorem nthFvg_mem (l : List Backtest.FVG) (k : ℕ) (hk : k < l.length) :
    Backtest.nthFvg l k ∈ l := by
  induction l generalizing k with
  | nil => simp at hk
  | cons f rest ih =>
    cases k with
    | zero => exact List.mem_cons_self f rest
    | succ k => exact List.mem_cons_of_mem f (ih k (by simpa using hk))

/-! ### Supporting lemmas: outer loop branches -/

/-- Outer loop body, no-signal branch. -/
theorem btStep_none (df : List Bar) (s : Backtest.BTState)
    (h : Backtest.check_signal s.i df s.fvgs = none) :
    Backtest.btStep df s =
      { s with i := s.i + 1, scans := s.scans ++ [s.i] } := by
  simp only [Backtest.btStep, h]

/-- Outer loop body, degenerate-risk discard branch. -/
theorem btStep_discard (df : List Bar) (s : Backtest.BTState)
    (sig : Backtest.Signal)
    (h : Backtest.check_signal s.i df s.fvgs = some sig)
    (hr : |sig.entry - sig.sl| = 0) :
    Backtest.btStep df s =
      { s with i := s.i + 1, scans := s.scans ++ [s.i],
               discards := s.discards + 1 } := by
  simp only [Backtest.btStep, h]
  rw [if_pos hr]

/-- Outer loop body, accepted-signal branch. -/
theorem btStep_open (df : List Bar) (s : Backtest.BTState)
    (sig : Backtest.Signal)
    (h : Backtest.check_signal s.i df s.fvgs = some sig)
    (hr : ¬ |sig.entry - sig.sl| = 0) :
    Backtest.btStep df s = Backtest.btOpen df s sig := by
  simp only [Backtest.btStep, h]
  rw [if_neg hr]

/-- Accepted-signal branch when the position never resolves before the
data ends: the gap is marked, no trade is recorded. -/
theorem btOpen_running (df : List Bar) (s : Backtest.BTState)
    (sig : Backtest.Signal)
    (h : (Backtest.btSim df s sig).1 = Outcome.Running) :
    Backtest.btOpen df s sig =
      { s with i := s.i + 1, scans := s.scans ++ [s.i],
               fvgs := Backtest.markMitigated s.fvgs sig.fvgIdx,
               accepted := s.accepted ++ [(s.i, sig.fvgIdx)] } := by
  unfold Backtest.btOpen
  rw [if_pos h]

/-- Accepted-signal branch with a finalized trade. -/
theorem btOpen_final (df : List Bar) (s : Backtest.BTState)
    (sig : Backtest.Signal)
    (h : ¬ (Backtest.btSim df s sig).1 = Outcome.Running) :
    Backtest.btOpen df s sig =
      { i := (Backtest.btSim df s sig).2.2 + 1,
        fvgs := Backtest.markMitigated s.fvgs sig.fvgIdx,
        capital := s.capital + (Backtest.btSim df s sig).2.1,
        trades := s.trades ++
          [{ time := s.i, type := sig.type,
             result := (Backtest.btSim df s sig).1,
             pnl := (Backtest.btSim df s sig).2.1,
             balance := s.capital + (Backtest.btSim df s sig).2.1 }],
        scans := s.scans ++ [s.i],
        accepted := s.accepted ++ [(s.i, sig.fvgIdx)],
        spans := s.spans ++ [(s.i, (Backtest.btSim df s sig).2.2)],
        discards := s.discards } := by
  unfold Backtest.btOpen
  rw [if_neg h]

/-- A finalized position's exit bar lies strictly beyond the entry bar. -/
theorem btSim_exit_gt (df : List Bar) (s : Backtest.BTState)
    (sig : Backtest.Signal)
    (h : ¬ (Backtest.btSim df s sig).1 = Outcome.Running) :
    s.i + 1 ≤ (Backtest.btSim df s sig).2.2 := by
  unfold Backtest.btSim at h ⊢
  have hm := simRun_mem df sig.type sig.entry sig.sl (Backtest.btTp sig)
      (Backtest.btBe sig) (s.capital * Backtest.RISK_PER_TRADE)
      (List.range' (s.i + 1) (df.length - (s.i + 1))) false s.i h
  exact (List.mem_range'_1.mp hm).1

/-- The scan cursor strictly increases across every outer-loop step. -/
theorem btStep_i_lt (df : List Bar) (s : Backtest.BTState) :
    s.i < (Backtest.btStep df s).i := by
  cases hcs : Backtest.check_signal s.i df s.fvgs with
  | none =>
    rw [btStep_none df s hcs]
    exact Nat.lt_succ_self _
  | some sig =>
    by_cases hr : |sig.entry - sig.sl| = 0
    · rw [btStep_discard df s sig hcs hr]
      exact Nat.lt_succ_self _
    · rw [btStep_open df s sig hcs hr]
      by_cases hrun : (Backtest.btSim df s sig).1 = Outcome.Running
      · rw [btOpen_running df s sig hrun]
        exact Nat.lt_succ_self _
      · rw [btOpen_final df s sig hrun]
        have := btSim_exit_gt df s sig hrun
        simpa using by omega

/-- Any property preserved by the loop body is an invariant of the
fuelled outer loop. -/
theorem btLoop_inv (df : List Bar) (P : Backtest.BTState → Prop)
    (hstep : ∀ s, s.i < df.length - 1 → P s → P (Backtest.btStep df s)) :
    ∀ (fuel : ℕ) (s : Backtest.BTState), P s → P (Backtest.btLoop df fuel s) := by
  intro fuel
  induction fuel with
  | zero => intro s hs; exact hs
  | succ n ih =>
    intro s hs
    rw [Backtest.btLoop]
    split_ifs with hlt
    · exact ih _ (hstep s hlt hs)
    · exact hs

/-- With fuel at least the remaining distance to the end of the data,
the outer loop runs until its guard fails. -/
theorem btLoop_complete (df : List Bar) :
    ∀ (fuel : ℕ) (s : Backtest.BTState),
      df.length - 1 ≤ s.i + fuel →
      df.length - 1 ≤ (Backtest.btLoop df fuel s).i := by
  intro fuel
  induction fuel with
  | zero =>
    intro s h
    simpa [Backtest.btLoop] using h
  | succ n ih =>
    intro s h
    rw [Backtest.btLoop]
    split_ifs with hlt
    · exact ih _ (by have := btStep_i_lt df s; omega)
    · omega

end SMC

namespace SMC

/-! ### Claim C1: mitigation exclusivity -/

/-- One outer-loop step preserves: accepted gap positions are distinct,
and every accepted position points at a gap whose mitigated flag is (and
stays) set. -/
theorem btStep_inv1 (df : List Bar) (s : Backtest.BTState)
    (hs : (s.accepted.map Prod.snd).Nodup ∧
          ∀ p ∈ s.accepted, p.2 < s.fvgs.length ∧
            (Backtest.nthFvg s.fvgs p.2).mitigated = true) :
    ((Backtest.btStep df s).accepted.map Prod.snd).Nodup ∧
    ∀ p ∈ (Backtest.btStep df s).accepted,
      p.2 < (Backtest.btStep df s).fvgs.length ∧
      (Backtest.nthFvg (Backtest.btStep df s).fvgs p.2).mitigated = true := by
  obtain ⟨hnd, hmem⟩ := hs
  cases hcs : Backtest.check_signal s.i df s.fvgs with
  | none =>
    rw [btStep_none df s hcs]
    exact ⟨hnd, hmem⟩
  | some sig =>
    by_cases hr : |sig.entry - sig.sl| = 0
    · rw [btStep_discard df s sig hcs hr]
      exact ⟨hnd, hmem⟩
    · rw [btStep_open df s sig hcs hr]
      obtain ⟨h200, atr, hat, hscan⟩ := check_signal_spec s.i df s.fvgs sig hcs
      obtain ⟨hlen, hm, -, -, -⟩ := scanFvgs_spec s.i _ _ atr s.fvgs sig hscan
      have hnotmem : sig.fvgIdx ∉ s.accepted.map Prod.snd := by
        intro hmm
        obtain ⟨p, hp, hps⟩ := List.mem_map.mp hmm
        have hmit := (hmem p hp).2
        rw [hps, hm] at hmit
        exact Bool.noConfusion hmit
      have hsnd : (s.accepted ++ [(s.i, sig.fvgIdx)]).map Prod.snd =
          s.accepted.map Prod.snd ++ [sig.fvgIdx] := by simp
      have hnd2 : ((s.accepted ++ [(s.i, sig.fvgIdx)]).map Prod.snd).Nodup := by
        rw [hsnd]
        refine List.Nodup.append hnd (List.nodup_singleton _) ?_
        intro a ha hb
        rw [List.mem_singleton] at hb
        subst hb
        exact hnotmem ha
      have hmem2 : ∀ p ∈ s.accepted ++ [(s.i, sig.fvgIdx)],
          p.2 < (Backtest.markMitigated s.fvgs sig.fvgIdx).length ∧
          (Backtest.nthFvg (Backtest.markMitigated s.fvgs sig.fvgIdx)
            p.2).mitigated = true := by
        intro p hp
        rw [markMitigated_length]
        rcases List.mem_append.mp hp with hp | hp
        · obtain ⟨hplt, hpm⟩ := hmem p hp
          refine ⟨hplt, ?_⟩
          by_cases hpe : p.2 = sig.fvgIdx
          · rw [hpe, nthFvg_markMitigated_self s.fvgs sig.fvgIdx hlen]
          · rw [nthFvg_markMitigated_ne s.fvgs sig.fvgIdx p.2 hpe]
            exact hpm
        · have hps : p = (s.i, sig.fvgIdx) := by simpa using hp
          subst hps
          exact ⟨hlen, by rw [nthFvg_markMitigated_self s.fvgs sig.fvgIdx hlen]⟩
      by_cases hrun : (Backtest.btSim df s sig).1 = Outcome.Running
      · rw [btOpen_running df s sig hrun]
        exact ⟨hnd2, hmem2⟩
      · rw [btOpen_final df s sig hrun]
        exact ⟨hnd2, hmem2⟩

/-- Claim C1: over a whole backtest, no FVG is matched by two distinct
accepted signals.  `check_signal` skips mitigated gaps (and skips stale
gaps without marking them, `scanFvgs_spec`); the simulator marks the
matched gap mitigated at acceptance, so the accepted list of
(entry bar, matched gap position) pairs never repeats a gap position:
at most one signal is produced per FVG. -/
theorem C1_mitigation_exclusivity (df : List Bar) :
    (((Backtest.run_backtest df).accepted).map Prod.snd).Nodup := by
  unfold Backtest.run_backtest
  exact (btLoop_inv df
    (fun s => (s.accepted.map Prod.snd).Nodup ∧
      ∀ p ∈ s.accepted, p.2 < s.fvgs.length ∧
        (Backtest.nthFvg s.fvgs p.2).mitigated = true)
    (fun s _ hs => btStep_inv1 df s hs) df.length
    { i := 200, fvgs := Backtest.detect_displacement_fvgs df,
      capital := Backtest.INITIAL_CAPITAL, trades := [], scans := [],
      accepted := [], spans := [], discards := 0 }
    ⟨by simp, by intro p hp; simp at hp⟩).1

/-! ### Claim C4: capital accounting -/

/-- `lastBal` of a log extended by one trade is that trade's recorded
balance. -/
theorem lastBal_append (init : ℚ) (ts : List Backtest.TradeRec)
    (t : Backtest.TradeRec) :
    Backtest.lastBal init (ts ++ [t]) = t.balance := by
  induction ts generalizing init with
  | nil => rfl
  | cons a rest ih => exact ih a.balance

/-- Appending a trade that satisfies the per-trade contract at the
current closing balance preserves the chained contract. -/
theorem tradesChain_append (init : ℚ) (ts : List Backtest.TradeRec)
    (t : Backtest.TradeRec)
    (hc : Backtest.tradesChain init ts)
    (ht : ((t.result = Outcome.Win ∧
              t.pnl = Backtest.lastBal init ts * Backtest.RISK_PER_TRADE *
                Backtest.TARGET_RR) ∨
           (t.result = Outcome.Loss ∧
              t.pnl = -(Backtest.lastBal init ts * Backtest.RISK_PER_TRADE)) ∨
           (t.result = Outcome.BE ∧ t.pnl = 0)) ∧
          t.balance = Backtest.lastBal init ts + t.pnl) :
    Backtest.tradesChain init (ts ++ [t]) := by
  induction ts generalizing init with
  | nil => exact ⟨ht.1, ht.2, trivial⟩
  | cons a rest ih =>
    obtain ⟨h1, h2, h3⟩ := hc
    exact ⟨h1, h2, ih a.balance h3 ht⟩

/-- The pnl of the simulated position in `run_backtest` matches the
outcome's formula at `risk_amt = capital * RISK_PER_TRADE`. -/
theorem btSim_pnl (df : List Bar) (s : Backtest.BTState)
    (sig : Backtest.Signal) :
    ((Backtest.btSim df s sig).1 = Outcome.Win →
       (Backtest.btSim df s sig).2.1 =
         s.capital * Backtest.RISK_PER_TRADE * Backtest.TARGET_RR) ∧
    ((Backtest.btSim df s sig).1 = Outcome.Loss →
       (Backtest.btSim df s sig).2.1 =
         -(s.capital * Backtest.RISK_PER_TRADE)) ∧
    ((Backtest.btSim df s sig).1 = Outcome.BE →
       (Backtest.btSim df s sig).2.1 = 0) ∧
    ((Backtest.btSim df s sig).1 = Outcome.Running →
       (Backtest.btSim df s sig).2.1 = 0) := by
  unfold Backtest.btSim
  exact simRun_pnl df sig.type sig.entry sig.sl (Backtest.btTp sig)
    (Backtest.btBe sig) (s.capital * Backtest.RISK_PER_TRADE)
    (List.range' (s.i + 1) (df.length - (s.i + 1))) false s.i

/-- One outer-loop step preserves the capital-accounting contract. -/
theorem btStep_inv4 (df : List Bar) (s : Backtest.BTState)
    (hs : Backtest.tradesChain Backtest.INITIAL_CAPITAL s.trades ∧
          s.capital = Backtest.lastBal Backtest.INITIAL_CAPITAL s.trades) :
    Backtest.tradesChain Backtest.INITIAL_CAPITAL
        (Backtest.btStep df s).trades ∧
    (Backtest.btStep df s).capital =
      Backtest.lastBal Backtest.INITIAL_CAPITAL
        (Backtest.btStep df s).trades := by
  cases hcs : Backtest.check_signal s.i df s.fvgs with
  | none =>
    rw [btStep_none df s hcs]
    exact hs
  | some sig =>
    by_cases hr : |sig.entry - sig.sl| = 0
    · rw [btStep_discard df s sig hcs hr]
      exact hs
    · rw [btStep_open df s sig hcs hr]
      by_cases hrun : (Backtest.btSim df s sig).1 = Outcome.Running
      · rw [btOpen_running df s sig hrun]
        exact hs
      · rw [btOpen_final df s sig hrun]
        obtain ⟨hchain, hcap⟩ := hs
        have hp := btSim_pnl df s sig
        constructor
        · apply tradesChain_append _ _ _ hchain
          constructor
          · rcases houtcome : (Backtest.btSim df s sig).1 with _ | _ | _ | _
            · exact absurd houtcome hrun
            · exact Or.inl ⟨rfl, by rw [← hcap]; exact hp.1 houtcome⟩
            · exact Or.inr (Or.inl ⟨rfl, by rw [← hcap]; exact hp.2.1 houtcome⟩)
            · exact Or.inr (Or.inr ⟨rfl, hp.2.2.1 houtcome⟩)
          · rw [← hcap]
        · rw [lastBal_append]

/-- Claim C4: in the backtest, each trade's risk amount is the balance at
entry times `RISK_PER_TRADE` and is fixed for the trade; the balance
changes only on finalization, by exactly the pnl; pnl is
`+risk_amount * TARGET_RR` for Win, `-risk_amount` for Loss, `0` for
BreakEven; every logged trade's outcome is Win, Loss or BE; and the
final capital equals the last logged balance. -/
theorem C4_capital_accounting (df : List Bar) :
    Backtest.tradesChain Backtest.INITIAL_CAPITAL
        (Backtest.run_backtest df).trades ∧
    (Backtest.run_backtest df).capital =
      Backtest.lastBal Backtest.INITIAL_CAPITAL
        (Backtest.run_backtest df).trades := by
  unfold Backtest.run_backtest
  exact btLoop_inv df
    (fun s => Backtest.tradesChain Backtest.INITIAL_CAPITAL s.trades ∧
      s.capital = Backtest.lastBal Backtest.INITIAL_CAPITAL s.trades)
    (fun s _ hs => btStep_inv4 df s hs) df.length _ ⟨trivial, rfl⟩

end SMC

namespace SMC

/-! ### Claim C2: trade sequencing -/

/-- Bookkeeping facts preserved when the outer loop merely scans a bar
and advances the cursor by one. -/
theorem inv2_scan_step (spans : List (ℕ × ℕ)) (scans : List ℕ) (i : ℕ)
    (h1 : ∀ p ∈ spans, p.1 < p.2 ∧ p.2 < i)
    (h2 : ∀ x ∈ scans, x < i)
    (h3 : ∀ p ∈ spans, ∀ x ∈ scans, x ≤ p.1 ∨ p.2 + 1 ≤ x)
    (h4 : ∀ p ∈ spans, p.2 + 1 ∈ scans ∨ p.2 + 1 = i) :
    (∀ p ∈ spans, p.1 < p.2 ∧ p.2 < i + 1) ∧
    (∀ x ∈ scans ++ [i], x < i + 1) ∧
    (∀ p ∈ spans, ∀ x ∈ scans ++ [i], x ≤ p.1 ∨ p.2 + 1 ≤ x) ∧
    (∀ p ∈ spans, p.2 + 1 ∈ scans ++ [i] ∨ p.2 + 1 = i + 1) := by
  refine ⟨fun p hp => ⟨(h1 p hp).1, by have := (h1 p hp).2; omega⟩,
          fun x hx => ?_, fun p hp x hx => ?_, fun p hp => ?_⟩
  · rcases List.mem_append.mp hx with hx | hx
    · have := h2 x hx
      omega
    · have hxi : x = i := by simpa using hx
      omega
  · rcases List.mem_append.mp hx with hx | hx
    · exact h3 p hp x hx
    · have hxi : x = i := by simpa using hx
      have := (h1 p hp).2
      right
      omega
  · rcases h4 p hp with hc | hc
    · exact Or.inl (List.mem_append.mpr (Or.inl hc))
    · exact Or.inl (by rw [hc]; exact List.mem_append.mpr (Or.inr (by simp)))

/-- Bookkeeping facts established when a trade entered at bar `i`
finalizes at bar `j` and the cursor jumps to `j + 1`. -/
theorem inv2_final_step (spans : List (ℕ × ℕ)) (scans : List ℕ) (i j : ℕ)
    (hj : i + 1 ≤ j)
    (h1 : ∀ p ∈ spans, p.1 < p.2 ∧ p.2 < i)
    (h2 : ∀ x ∈ scans, x < i)
    (h3 : ∀ p ∈ spans, ∀ x ∈ scans, x ≤ p.1 ∨ p.2 + 1 ≤ x)
    (h4 : ∀ p ∈ spans, p.2 + 1 ∈ scans ∨ p.2 + 1 = i)
    (h5 : spans.Pairwise (fun p q => p.2 < q.1)) :
    (∀ p ∈ spans ++ [(i, j)], p.1 < p.2 ∧ p.2 < j + 1) ∧
    (∀ x ∈ scans ++ [i], x < j + 1) ∧
    (∀ p ∈ spans ++ [(i, j)], ∀ x ∈ scans ++ [i],
       x ≤ p.1 ∨ p.2 + 1 ≤ x) ∧
    (∀ p ∈ spans ++ [(i, j)], p.2 + 1 ∈ scans ++ [i] ∨ p.2 + 1 = j + 1) ∧
    (spans ++ [(i, j)]).Pairwise (fun p q => p.2 < q.1) := by
  refine ⟨?_, ?_, ?_, ?_, ?_⟩
  · intro p hp
    rcases List.mem_append.mp hp with hp | hp
    · have := h1 p hp
      exact ⟨this.1, by omega⟩
    · have hpe : p = (i, j) := by simpa using hp
      subst hpe
      exact ⟨by omega, by omega⟩
  · intro x hx
    rcases List.mem_append.mp hx with hx | hx
    · have := h2 x hx
      omega
    · have hxi : x = i := by simpa using hx
      omega
  · intro p hp x hx
    rcases List.mem_append.mp hp with hp | hp
    · rcases List.mem_append.mp hx with hx | hx
      · exact h3 p hp x hx
      · have hxi : x = i := by simpa using hx
        have := (h1 p hp).2
        right
        omega
    · have hpe : p = (i, j) := by simpa using hp
      subst hpe
      rcases List.mem_append.mp hx with hx | hx
      · have := h2 x hx
        left
        show x ≤ i
        omega
      · have hxi : x = i := by simpa using hx
        left
        show x ≤ i
        omega
  · intro p hp
    rcases List.mem_append.mp hp with hp | hp
    · rcases h4 p hp with hc | hc
      · exact Or.inl (List.mem_append.mpr (Or.inl hc))
      · exact Or.inl (by rw [hc]; exact List.mem_append.mpr (Or.inr (by simp)))
    · have hpe : p = (i, j) := by simpa using hp
      subst hpe
      right
      rfl
  · rw [List.pairwise_append]
    refine ⟨h5, List.pairwise_singleton _ _, ?_⟩
    intro a ha b hb
    have hbe : b = (i, j) := by simpa using hb
    subst hbe
    have := (h1 a ha).2
    show a.2 < i
    omega

/-- One outer-loop step preserves the sequencing bookkeeping. -/
theorem btStep_inv2 (df : List Bar) (s : Backtest.BTState)
    (hs : (∀ p ∈ s.spans, p.1 < p.2 ∧ p.2 < s.i) ∧
          (∀ x ∈ s.scans, x < s.i) ∧
          (∀ p ∈ s.spans, ∀ x ∈ s.scans, x ≤ p.1 ∨ p.2 + 1 ≤ x) ∧
          (∀ p ∈ s.spans, p.2 + 1 ∈ s.scans ∨ p.2 + 1 = s.i) ∧
          s.spans.Pairwise (fun p q => p.2 < q.1)) :
    (∀ p ∈ (Backtest.btStep df s).spans,
       p.1 < p.2 ∧ p.2 < (Backtest.btStep df s).i) ∧
    (∀ x ∈ (Backtest.btStep df s).scans, x < (Backtest.btStep df s).i) ∧
    (∀ p ∈ (Backtest.btStep df s).spans,
       ∀ x ∈ (Backtest.btStep df s).scans, x ≤ p.1 ∨ p.2 + 1 ≤ x) ∧
    (∀ p ∈ (Backtest.btStep df s).spans,
       p.2 + 1 ∈ (Backtest.btStep df s).scans ∨
         p.2 + 1 = (Backtest.btStep df s).i) ∧
    (Backtest.btStep df s).spans.Pairwise (fun p q => p.2 < q.1) := by
  obtain ⟨h1, h2, h3, h4, h5⟩ := hs
  cases hcs : Backtest.check_signal s.i df s.fvgs with
  | none =>
    rw [btStep_none df s hcs]
    obtain ⟨g1, g2, g3, g4⟩ := inv2_scan_step s.spans s.scans s.i h1 h2 h3 h4
    exact ⟨g1, g2, g3, g4, h5⟩
  | some sig =>
    by_cases hr : |sig.entry - sig.sl| = 0
    · rw [btStep_discard df s sig hcs hr]
      obtain ⟨g1, g2, g3, g4⟩ := inv2_scan_step s.spans s.scans s.i h1 h2 h3 h4
      exact ⟨g1, g2, g3, g4, h5⟩
    · rw [btStep_open df s sig hcs hr]
      by_cases hrun : (Backtest.btSim df s sig).1 = Outcome.Running
      · rw [btOpen_running df s sig hrun]
        obtain ⟨g1, g2, g3, g4⟩ := inv2_scan_step s.spans s.scans s.i h1 h2 h3 h4
        exact ⟨g1, g2, g3, g4, h5⟩
      · rw [btOpen_final df s sig hrun]
        have hj := btSim_exit_gt df s sig hrun
        exact inv2_final_step s.spans s.scans s.i
          (Backtest.btSim df s sig).2.2 hj h1 h2 h3 h4 h5

/-- Claim C2 (amended): in the backtest, after a trade entered at bar `i`
finalizes at future bar `j`, the scan never visits any bar in `(i, j]`;
it resumes at `j + 1` (the source sets `i = j` and the loop increment
then advances it), and whenever `j + 1` is still inside the scan range it
is in fact the next scanned bar.  Consecutive finalized trades occupy
disjoint, strictly ordered bar intervals, so only one trade is open at a
time and overlapping trades never occur. -/
theorem C2_sequencing_resumes_after_exit (df : List Bar) :
    (∀ p ∈ (Backtest.run_backtest df).spans, p.1 < p.2) ∧
    (∀ p ∈ (Backtest.run_backtest df).spans,
       ∀ x ∈ (Backtest.run_backtest df).scans, x ≤ p.1 ∨ p.2 + 1 ≤ x) ∧
    (∀ p ∈ (Backtest.run_backtest df).spans,
       p.2 + 1 < df.length - 1 →
         p.2 + 1 ∈ (Backtest.run_backtest df).scans) ∧
    (Backtest.run_backtest df).spans.Pairwise (fun p q => p.2 < q.1) := by
  unfold Backtest.run_backtest
  have hfin : df.length - 1 ≤
      (Backtest.btLoop df df.length
        { i := 200, fvgs := Backtest.detect_displacement_fvgs df,
          capital := Backtest.INITIAL_CAPITAL, trades := [], scans := [],
          accepted := [], spans := [], discards := 0 }).i := by
    apply btLoop_complete df df.length
    show df.length - 1 ≤ 200 + df.length
    omega
  have hinv := btLoop_inv df
    (fun s => (∀ p ∈ s.spans, p.1 < p.2 ∧ p.2 < s.i) ∧
      (∀ x ∈ s.scans, x < s.i) ∧
      (∀ p ∈ s.spans, ∀ x ∈ s.scans, x ≤ p.1 ∨ p.2 + 1 ≤ x) ∧
      (∀ p ∈ s.spans, p.2 + 1 ∈ s.scans ∨ p.2 + 1 = s.i) ∧
      s.spans.Pairwise (fun p q => p.2 < q.1))
    (fun s _ hs => btStep_inv2 df s hs) df.length
    { i := 200, fvgs := Backtest.detect_displacement_fvgs df,
      capital := Backtest.INITIAL_CAPITAL, trades := [], scans := [],
      accepted := [], spans := [], discards := 0 }
    ⟨by simp, by simp, by simp, by simp, by simp⟩
  obtain ⟨k1, k2, k3, k4, k5⟩ := hinv
  refine ⟨fun p hp => (k1 p hp).1, k3, fun p hp hlt => ?_, k5⟩
  rcases k4 p hp with hc | hc
  · exact hc
  · rw [hc] at hlt
    omega

end SMC

namespace SMC

/-! ### Claim C9: no degenerate (zero-risk) signals -/

/-- Under well-formed OHLC data, every bar the engine reads (including
the zero default) has `low ≤ high`. -/
theorem nth_wf (df : List Bar) (hwf : Backtest.wellformedBars df) (j : ℕ) :
    (nth df j).low ≤ (nth df j).high := by
  induction df generalizing j with
  | nil => cases j <;> exact le_refl 0
  | cons b rest ih =>
    cases j with
    | zero => exact hwf b (List.mem_cons_self b rest)
    | succ j => exact ih (fun x hx => hwf x (List.mem_cons_of_mem b hx)) j

/-- Under well-formed data every true range is nonnegative. -/
theorem trAt_nonneg (df : List Bar) (hwf : Backtest.wellformedBars df)
    (j : ℕ) : 0 ≤ Backtest.trAt df j := by
  have hlh := nth_wf df hwf j
  unfold Backtest.trAt
  have h0 : (0 : ℚ) ≤ (nth df j).high - (nth df j).low := by linarith
  exact le_trans h0 (le_max_left _ _)

/-- Under well-formed data every defined ATR value is nonnegative. -/
theorem atrAt_nonneg (df : List Bar) (hwf : Backtest.wellformedBars df)
    (i : ℕ) (atr : ℚ) (h : Backtest.atrAt df i = some atr) : 0 ≤ atr := by
  unfold Backtest.atrAt at h
  split_ifs at h with h14
  cases h
  apply div_nonneg _ (by norm_num)
  apply List.sum_nonneg
  intro x hx
  obtain ⟨k, hk, rfl⟩ := List.mem_map.mp hx
  exact trAt_nonneg df hwf _

/-- Under well-formed data, any signal `check_signal` returns against a
gap list whose gaps all have `bottom < top` carries strictly positive
risk `|entry - sl|`. -/
theorem check_signal_risk_pos (df : List Bar)
    (hwf : Backtest.wellformedBars df) (i : ℕ)
    (fvgs : List Backtest.FVG)
    (hfv : ∀ k, k < fvgs.length →
      (Backtest.nthFvg fvgs k).bottom < (Backtest.nthFvg fvgs k).top)
    (sig : Backtest.Signal)
    (h : Backtest.check_signal i df fvgs = some sig) :
    0 < |sig.entry - sig.sl| := by
  obtain ⟨-, atr, hat, hscan⟩ := check_signal_spec i df fvgs sig h
  have hatr : 0 ≤ atr := atrAt_nonneg df hwf i atr hat
  obtain ⟨hlen, -, -, -, hd⟩ := scanFvgs_spec i _ _ atr fvgs sig hscan
  have hbt := hfv sig.fvgIdx hlen
  have hpad : 0 ≤ Backtest.SL_PADDING_ATR * atr :=
    mul_nonneg (by norm_num [Backtest.SL_PADDING_ATR]) hatr
  rcases hd with ⟨-, -, he, hsl⟩ | ⟨-, -, he, hsl⟩
  · have hpos : 0 < sig.entry - sig.sl := by
      rw [he, hsl]
      linarith
    calc (0 : ℚ) < sig.entry - sig.sl := hpos
      _ ≤ |sig.entry - sig.sl| := le_abs_self _
  · have hpos : 0 < sig.sl - sig.entry := by
      rw [he, hsl]
      linarith
    calc (0 : ℚ) < sig.sl - sig.entry := hpos
      _ ≤ |sig.sl - sig.entry| := le_abs_self _
      _ = |sig.entry - sig.sl| := abs_sub_comm _ _

/-- Every gap list the detector produces has `bottom < top` at every
position. -/
theorem detect_bottom_lt_top (df : List Bar) (k : ℕ)
    (hk : k < (Backtest.detect_displacement_fvgs df).length) :
    (Backtest.nthFvg (Backtest.detect_displacement_fvgs df) k).bottom <
      (Backtest.nthFvg (Backtest.detect_displacement_fvgs df) k).top := by
  have hmem := nthFvg_mem _ k hk
  obtain ⟨i, -, hfi⟩ := detect_mem df _ hmem
  exact (fvgAt_spec df i _ hfi).2

/-- One outer-loop step, under well-formed data, preserves gap heights
and never takes the `risk == 0` discard branch. -/
theorem btStep_inv9 (df : List Bar) (hwf : Backtest.wellformedBars df)
    (s : Backtest.BTState)
    (hs : (∀ k, k < s.fvgs.length →
            (Backtest.nthFvg s.fvgs k).bottom <
              (Backtest.nthFvg s.fvgs k).top) ∧
          s.discards = 0) :
    (∀ k, k < (Backtest.btStep df s).fvgs.length →
       (Backtest.nthFvg (Backtest.btStep df s).fvgs k).bottom <
         (Backtest.nthFvg (Backtest.btStep df s).fvgs k).top) ∧
    (Backtest.btStep df s).discards = 0 := by
  obtain ⟨hfv, hdz⟩ := hs
  cases hcs : Backtest.check_signal s.i df s.fvgs with
  | none =>
    rw [btStep_none df s hcs]
    exact ⟨hfv, hdz⟩
  | some sig =>
    have hpos := check_signal_risk_pos df hwf s.i s.fvgs hfv sig hcs
    by_cases hr : |sig.entry - sig.sl| = 0
    · rw [hr] at hpos
      exact absurd hpos (lt_irrefl 0)
    · rw [btStep_open df s sig hcs hr]
      obtain ⟨-, atr, -, hscan⟩ := check_signal_spec s.i df s.fvgs sig hcs
      obtain ⟨hlen, -, -, -, -⟩ := scanFvgs_spec s.i _ _ atr s.fvgs sig hscan
      have hfv2 : ∀ k, k < (Backtest.markMitigated s.fvgs sig.fvgIdx).length →
          (Backtest.nthFvg (Backtest.markMitigated s.fvgs sig.fvgIdx) k).bottom <
            (Backtest.nthFvg (Backtest.markMitigated s.fvgs sig.fvgIdx) k).top := by
        intro k hklt
        rw [markMitigated_length] at hklt
        by_cases hke : k = sig.fvgIdx
        · rw [hke, nthFvg_markMitigated_self s.fvgs sig.fvgIdx hlen]
          exact hfv sig.fvgIdx hlen
        · rw [nthFvg_markMitigated_ne s.fvgs sig.fvgIdx k hke]
          exact hfv k hklt
      by_cases hrun : (Backtest.btSim df s sig).1 = Outcome.Running
      · rw [btOpen_running df s sig hrun]
        exact ⟨hfv2, hdz⟩
      · rw [btOpen_final df s sig hrun]
        exact ⟨hfv2, hdz⟩

/-- Under well-formed data, any signal the live `check_structure` emits
carries strictly positive risk `|entry - sl|`. -/
theorem check_structure_risk_pos (df : List Bar)
    (hwf : Backtest.wellformedBars df) (sig : Live.LiveSignal)
    (h : Live.check_structure df = some sig) :
    0 < |sig.entry - sig.sl| := by
  simp only [Live.check_structure] at h
  by_cases hkz : Live.in_live_killzone (nth df (df.length - 2)).hour
  · rw [if_pos hkz] at h
    cases hat : Backtest.atrAt df (df.length - 2) with
    | none =>
      rw [hat] at h
      exact Option.noConfusion h
    | some atr =>
      rw [hat] at h
      cases hem : Backtest.ema200At df (df.length - 2) with
      | none =>
        rw [hem] at h
        exact Option.noConfusion h
      | some trend =>
        rw [hem] at h
        simp only [] at h
        have hatr : 0 ≤ atr := atrAt_nonneg df hwf _ atr hat
        have hpad : 0 ≤ atr * Live.SL_PADDING :=
          mul_nonneg hatr (by norm_num [Live.SL_PADDING])
        split_ifs at h with hbody hc1 hc2 hc3 hc4
        · simp only [] at h
          cases h
          refine lt_of_lt_of_le ?_ (le_abs_self _)
          show (0 : ℚ) < (nth df (df.length - 2)).low -
            ((nth df (df.length - 4)).high - atr * Live.SL_PADDING)
          linarith
        · simp only [] at h
          cases h
          rw [abs_sub_comm]
          refine lt_of_lt_of_le ?_ (le_abs_self _)
          show (0 : ℚ) < ((nth df (df.length - 4)).low + atr * Live.SL_PADDING) -
            (nth df (df.length - 2)).high
          linarith
  · rw [if_neg hkz] at h
    exact Option.noConfusion h

/-- Claim C9: every signal produced by either resolver has strictly
positive risk `|entry - stop|` (given well-formed OHLC bars, whose ATR
padding is nonnegative and whose creation guards are strict), so the
`risk == 0` discard branch of `run_backtest` is never taken and no
degenerate signal can be recorded in the live ledger. -/
theorem C9_no_zero_risk_signals (df : List Bar)
    (hwf : Backtest.wellformedBars df) :
    (Backtest.run_backtest df).discards = 0 ∧
    (∀ i sig, Backtest.check_signal i df
        (Backtest.detect_displacement_fvgs df) = some sig →
      0 < |sig.entry - sig.sl|) ∧
    (∀ sig, Live.check_structure df = some sig →
      0 < |sig.entry - sig.sl|) := by
  refine ⟨?_, ?_, ?_⟩
  · unfold Backtest.run_backtest
    exact (btLoop_inv df
      (fun s => (∀ k, k < s.fvgs.length →
          (Backtest.nthFvg s.fvgs k).bottom <
            (Backtest.nthFvg s.fvgs k).top) ∧ s.discards = 0)
      (fun s _ hs => btStep_inv9 df hwf s hs) df.length
      { i := 200, fvgs := Backtest.detect_displacement_fvgs df,
        capital := Backtest.INITIAL_CAPITAL, trades := [], scans := [],
        accepted := [], spans := [], discards := 0 }
      ⟨fun k hk => detect_bottom_lt_top df k hk, rfl⟩).2
  · intro i sig hsig
    exact check_signal_risk_pos df hwf i _
      (fun k hk => detect_bottom_lt_top df k hk) sig hsig
  · intro sig hsig
    exact check_structure_risk_pos df hwf sig hsig

end SMC

namespace SMC

/-! ### Concrete evaluations: the 251-bar example backtest -/

set_option maxRecDepth 100000 in
unseal Rat.add Rat.mul Rat.inv Rat.sub in
/-- Claim C2, counterexample to the claim as stated: in the example
backtest the only trade is entered at bar 201 and finalizes at future
bar `j = 202`, yet bar 202 is never scanned for a signal — the outer scan
resumes at `j + 1 = 203`, not at `j` (the source runs `i = j` and then the
loop's `i += 1`). -/
theorem C2_resumes_at_j_counterexample :
    (Backtest.run_backtest Backtest.exDf).spans = [(201, 202)] ∧
    (Backtest.run_backtest Backtest.exDf).trades =
      [{ time := 201, type := Direction.LONG, result := Outcome.Win,
         pnl := 200, balance := 10200 }] ∧
    202 ∉ (Backtest.run_backtest Backtest.exDf).scans ∧
    203 ∈ (Backtest.run_backtest Backtest.exDf).scans := by
  decide

set_option maxRecDepth 100000 in
unseal Rat.add Rat.mul Rat.inv Rat.sub in
/-- Claim C2 witness for the amended statement, at the example backtest:
its only trade spans bars (201, 202]; 203 (= j + 1) is scanned, and the
scanned bar 249 lies outside the open interval (201, 202]. -/
theorem C2_sequencing_resumes_after_exit_witness :
    (201 : ℕ) < 202 ∧
    203 ∈ (Backtest.run_backtest Backtest.exDf).scans ∧
    ((249 : ℕ) ≤ 201 ∨ (203 : ℕ) ≤ 249) :=
  ⟨(C2_sequencing_resumes_after_exit Backtest.exDf).1 (201, 202) (by decide),
   (C2_sequencing_resumes_after_exit Backtest.exDf).2.2.1 (201, 202)
     (by decide) (by decide),
   (C2_sequencing_resumes_after_exit Backtest.exDf).2.1 (201, 202)
     (by decide) 249 (by decide)⟩

/-- Claim C3 witness: a bar that touches the stop resolves to Loss with
pnl `-risk_amount` even though break-even is unarmed, and a bar clear of
the stop that reaches the target resolves to Win with pnl
`risk_amount * TARGET_RR`. -/
theorem C3_stop_target_be_order_witness :
    Backtest.simStep ⟨0, 0, 5, 1, 2⟩ Direction.LONG 10 2 20 15 1 false =
      (Outcome.Loss, -1, false) ∧
    Backtest.simStep ⟨0, 0, 25, 6, 7⟩ Direction.LONG 10 2 20 15 1 false =
      (Outcome.Win, 1 * Backtest.TARGET_RR, false) :=
  ⟨(C3_stop_target_be_order ⟨0, 0, 5, 1, 2⟩ 10 2 20 15 1 false).1 (by decide),
   (C3_stop_target_be_order ⟨0, 0, 25, 6, 7⟩ 10 2 20 15 1 false).2.1
     (by decide) (by decide)⟩

set_option maxRecDepth 100000 in
unseal Rat.add Rat.mul Rat.inv Rat.sub in
/-- Claim C9 witness: the example series is well-formed OHLC data and its
backtest never takes the `risk == 0` discard branch. -/
theorem C9_no_zero_risk_signals_witness :
    Backtest.wellformedBars Backtest.exDf ∧
    (Backtest.run_backtest Backtest.exDf).discards = 0 :=
  ⟨by unfold Backtest.wellformedBars; decide,
   (C9_no_zero_risk_signals Backtest.exDf
     (by unfold Backtest.wellformedBars; decide)).1⟩

set_option maxRecDepth 100000 in
unseal Rat.add Rat.mul Rat.inv Rat.sub in
/-- Claim C10 witness: the example's single gap is created at bar 200,
inside the candidate range, with 51 bars of data at or after it. -/
theorem C10_detector_skips_final_bars_witness :
    2 ≤ 200 ∧ 200 + 51 ≤ Backtest.exDf.length :=
  C10_detector_skips_final_bars Backtest.exDf
    ⟨200, FVGType.Bullish, 106, 100, false, 200⟩ (by decide)

end SMC
